import Mathlib

/-!
Verification of the PASCAL VOC dataset adapter
(`maskrcnn_benchmark/data/datasets/voc.py`).

The Python module is embedded shallowly:

* `XML` models an `lxml.etree` element tree (tag, text, children).
* `PyVal` models the Python values produced by the recursive parser
  `_recursive_parse_xml_to_dict`: a text leaf (`xml.text`, possibly `None`),
  a dict, or a list (used only for the accumulated `object` entries).
* Python dicts are association lists with first-match lookup; insertion
  replaces the value of an existing key in place, as Python dicts do.
* Fallible Python operations (dict `KeyError`, `int()` on bad text,
  `tuple.index` misses, missing files) are modelled in `Option`:
  `none` is an uncaught exception.
* The filesystem is abstracted as functions: `files : String → Option XML`
  for the already-parsed annotation file of each identifier, and
  `imgs : String → Option (Int × Int)` giving the (width, height) of the
  decoded image (the only data of the image the module uses).
-/

namespace VOC

/-- Python values as produced by the recursive XML parser:
`xml.text` leaves (possibly `None`), nested dicts, and the lists that
accumulate `object` children. -/
inductive PyVal where
  | vtext : Option String → PyVal
  | vdict : List (String × PyVal) → PyVal
  | vlist : List PyVal → PyVal

abbrev AList := List (String × PyVal)

/-- An `lxml.etree` element: tag, text content, child elements. -/
inductive XML where
  | node (tag : String) (text : Option String) (children : List XML)

def XML.tag : XML → String
  | .node t _ _ => t

def XML.children : XML → List XML
  | .node _ _ cs => cs

/-- Python dict lookup `d[k]` (first matching key; keys are unique in all
dicts the module builds). `none` is a `KeyError`. -/
def dlookup {α β : Type} [BEq α] : List (α × β) → α → Option β
  | [], _ => none
  | (a, b) :: d, k => if a == k then some b else dlookup d k

/-- Python dict assignment `d[k] = v`: replaces the value of an existing
key in place, otherwise appends the new binding at the end. -/
def dinsert {α β : Type} [BEq α] : List (α × β) → α → β → List (α × β)
  | [], k, v => [(k, v)]
  | (a, b) :: d, k, v => if a == k then (k, v) :: d else (a, b) :: dinsert d k v

/-- The list stored under `object` so far (`result[child.tag]` in the
`else` branch; the key, when present, always holds a list). -/
def objEntries : Option PyVal → List PyVal
  | some (.vlist l) => l
  | _ => []

mutual

/-- `PascalVOC._recursive_parse_xml_to_dict`, value part: the value the
parser stores under `xml.tag`.  A childless element yields its text
(`{xml.tag: xml.text}`); otherwise the children are folded into a dict. -/
def parseValue : XML → PyVal
  | .node _ t [] => .vtext t
  | .node _ _ (c :: cs) => .vdict (parseChildren (c :: cs) [])

/-- The `for child in xml` loop of `_recursive_parse_xml_to_dict`,
threading the `result` dict: a child tagged `object` is appended to the
list under key `object`, every other child overwrites its tag's entry. -/
def parseChildren : List XML → AList → AList
  | [], acc => acc
  | c :: cs, acc =>
      let v := parseValue c
      let acc' :=
        if c.tag != "object" then dinsert acc c.tag v
        else dinsert acc "object" (.vlist (objEntries (dlookup acc "object") ++ [v]))
      parseChildren cs acc'

end

/-- `PascalVOC._recursive_parse_xml_to_dict xml` = `{xml.tag: value}`. -/
def recursive_parse_xml_to_dict (x : XML) : AList :=
  [(x.tag, parseValue x)]

/-- The whitespace characters stripped by Python's `str.strip()`
(ASCII subset; the identifiers and numerals in VOC files are ASCII). -/
def pyWhitespace (c : Char) : Bool :=
  c == ' ' || c == '\t' || c == '\n' || c == '\r' ||
    c == Char.ofNat 11 || c == Char.ofNat 12

/-- Python `s.strip()`: drop leading and trailing whitespace. -/
def pyStrip (s : String) : String :=
  ⟨((s.data.dropWhile pyWhitespace).reverse.dropWhile pyWhitespace).reverse⟩

/-- Decimal digit run for `int()`: nonempty, all digits. -/
def pyDigits : List Char → Option Nat
  | [] => none
  | ds =>
      if ds.all Char.isDigit then
        some (ds.foldl (fun n c => 10 * n + (c.toNat - 48)) 0)
      else none

/-- Python `int(s)` on a string: surrounding whitespace is ignored, an
optional single sign precedes a nonempty digit run; anything else raises
`ValueError` (`none`). (Underscore digit grouping is not modelled; VOC
coordinate and flag texts are plain decimals.) -/
def pyIntOfString (s : String) : Option Int :=
  match (pyStrip s).data with
  | '-' :: ds => (pyDigits ds).map (fun n => -(n : Int))
  | '+' :: ds => (pyDigits ds).map (fun n => (n : Int))
  | ds => (pyDigits ds).map (fun n => (n : Int))

/-- Python `int(v)` on a parsed XML value: only a present text leaf can
convert; `int(None)`, `int(dict)`, `int(list)` raise (`none`). -/
def pyIntOfVal : PyVal → Option Int
  | .vtext (some s) => pyIntOfString s
  | _ => none

/-- Python subscript `v[k]` with a string key: only dicts support it
(`TypeError` otherwise). -/
def pyAccess : PyVal → String → Option PyVal
  | .vdict d, k => dlookup d k
  | _, _ => none

/-- The module-level constant `VOC_BBOX_LABEL_NAMES`. -/
def VOC_BBOX_LABEL_NAMES : List String :=
  ["aeroplane", "bicycle", "bird", "boat", "bottle", "bus", "car", "cat",
   "chair", "cow", "diningtable", "dog", "horse", "motorbike", "person",
   "pottedplant", "sheep", "sofa", "train", "tvmonitor"]

/-- `VOC_BBOX_LABEL_NAMES.index(v)`: position of the first equal element;
`ValueError` (`none`) when absent or when `v` is not a text string. -/
def vocIndex : PyVal → Option Nat
  | .vtext (some s) => VOC_BBOX_LABEL_NAMES.findIdx? (fun n => n == s)
  | _ => none

/-- `int(obj['difficult'])`. -/
def objDifficult (obj : PyVal) : Option Int :=
  (pyAccess obj "difficult").bind pyIntOfVal

/-- `[int(obj['bndbox']['xmin']), int(..ymin), int(..xmax), int(..ymax)]`. -/
def parseBox (obj : PyVal) : Option (List Int) := do
  let bb ← pyAccess obj "bndbox"
  let xmin ← pyIntOfVal (← pyAccess bb "xmin")
  let ymin ← pyIntOfVal (← pyAccess bb "ymin")
  let xmax ← pyIntOfVal (← pyAccess bb "xmax")
  let ymax ← pyIntOfVal (← pyAccess bb "ymax")
  pure [xmin, ymin, xmax, ymax]

/-- The `boxes` comprehension: for each object evaluate the `difficult`
filter, and for the kept ones the box expression. -/
def buildBoxes : List PyVal → Option (List (List Int))
  | [] => some []
  | obj :: rest => do
      let d ← objDifficult obj
      if d = 0 then
        let b ← parseBox obj
        let bs ← buildBoxes rest
        pure (b :: bs)
      else buildBoxes rest

/-- The `labels` comprehension: `VOC_BBOX_LABEL_NAMES.index(obj['name'])`
for each non-difficult object. -/
def buildLabels : List PyVal → Option (List Nat)
  | [] => some []
  | obj :: rest => do
      let d ← objDifficult obj
      if d = 0 then
        let nm ← pyAccess obj "name"
        let l ← vocIndex nm
        let ls ← buildLabels rest
        pure (l :: ls)
      else buildLabels rest

/-- One normalized annotation record `self.anns[img_id]`. -/
structure Ann where
  boxes : List (List Int)
  labels : List Nat
  size : PyVal

/-- `data = self._recursive_parse_xml_to_dict(xml)['annotation']`. -/
def annData (x : XML) : Option PyVal :=
  dlookup (recursive_parse_xml_to_dict x) "annotation"

/-- Iterating `data['object']`: the key must be present and hold a list
(the parser only ever stores a list under `object`). -/
def asObjList : PyVal → Option (List PyVal)
  | .vlist l => some l
  | _ => none

/-- The object list `data['object']` of one annotation tree. -/
def annObjects (x : XML) : Option (List PyVal) := do
  let d ← annData x
  asObjList (← pyAccess d "object")

/-- The body of the per-identifier loop in `PascalVOC.__init__`: parse the
annotation tree and derive the record `{'boxes': …, 'labels': …, 'size': …}`. -/
def buildAnn (x : XML) : Option Ann := do
  let d ← annData x
  let objs ← asObjList (← pyAccess d "object")
  let boxes ← buildBoxes objs
  let labels ← buildLabels objs
  let size ← pyAccess d "size"
  pure ⟨boxes, labels, size⟩

/-- The `for img_id in self.ids` loop filling `self.anns`; a missing or
unparsable annotation file is fatal (`none`). -/
def buildAnns : List String → (String → Option XML) → Option (List (String × Ann))
  | [], _ => some []
  | i :: rest, files => do
      let x ← files i
      let a ← buildAnn x
      let r ← buildAnns rest files
      pure ((i, a) :: r)

/-- Python's codepoint-lexicographic string comparison `a <= b`,
as a Boolean on the underlying character lists. -/
def lexLe : List Char → List Char → Bool
  | [], _ => true
  | _ :: _, [] => false
  | a :: as, b :: bs =>
      if a.toNat < b.toNat then true
      else if b.toNat < a.toNat then false
      else lexLe as bs

/-- Python string order `a <= b` (codepoint-lexicographic). -/
def strle (a b : String) : Prop :=
  lexLe a.data b.data = true

instance : DecidableRel strle := fun a b =>
  inferInstanceAs (Decidable (lexLe a.data b.data = true))

/-- Python `sorted(xs)` on strings: the sorted-ascending permutation of
`xs`.  `strle` is a linear order on strings, so the sorted permutation is
unique as a list and any sorting algorithm yields it; we use insertion
sort. -/
def pySorted (xs : List String) : List String :=
  List.insertionSort strle xs

/-- `{v: i + 1 for i, v in enumerate(range(20))}` — the field
`json_category_id_to_contiguous_id`. -/
def jsonToContig : List (Nat × Nat) :=
  ((List.range 20).enum).map (fun p => (p.2, p.1 + 1))

/-- `{v: k for k, v in self.json_category_id_to_contiguous_id.items()}` —
the field `contiguous_category_id_to_json_id`. -/
def contigToJson : List (Nat × Nat) :=
  jsonToContig.map (fun p => (p.2, p.1))

/-- The modelled state of the external `BoxList` target after
`BoxList(boxes, img.size, mode="xyxy").convert("xyxy")` and
`add_field("labels", classes)`.

Modelled from the spec: `BoxList` (file not under `src/`) is the external
target structure holding ground-truth boxes in corner-coordinate
(`xmin, ymin, xmax, ymax`) mode together with the attached `labels`
field; `convert` to the mode it is already in leaves the boxes unchanged. -/
structure BoxListM where
  bxs : List (List Int)
  labels : List Nat

/-- Modelled from the spec: clamping one corner-mode box to the image
bounds, the clipping half of `BoxList.clip_to_image`. -/
def clipBox (w h : Int) : List Int → List Int
  | [x0, y0, x1, y1] =>
      [max 0 (min x0 w), max 0 (min y0 h), max 0 (min x1 w), max 0 (min y1 h)]
  | b => b

/-- Modelled from the spec: a clipped box that encloses no area is
"empty" and is dropped by `remove_empty`. -/
def boxIsEmpty : List Int → Bool
  | [x0, y0, x1, y1] => x1 ≤ x0 || y1 ≤ y0
  | _ => true

/-- Modelled from the spec: `BoxList.clip_to_image(remove_empty=True)`
(file not under `src/`) — clamp every box to the image bounds and drop
the boxes that become empty, dropping the corresponding `labels` rows. -/
def clipToImage (t : BoxListM) (w h : Int) : BoxListM :=
  let rows := (t.bxs.zip t.labels).filter
    (fun r => !(boxIsEmpty (clipBox w h r.1)))
  ⟨rows.map (fun r => clipBox w h r.1), rows.map (fun r => r.2)⟩

/-- A transform pipeline: maps an (image, target) pair to an
(image, target) pair (the image is tracked by its size only). -/
abbrev Transform := ((Int × Int) × BoxListM) → ((Int × Int) × BoxListM)

/-- The comprehension `[self.json_category_id_to_contiguous_id[c] for c in
labels]`: each raw label is looked up in the id mapping, a miss is a
`KeyError` (`none`). -/
def classesOf (m : List (Nat × Nat)) : List Nat → Option (List Nat)
  | [] => some []
  | c :: cs =>
      (dlookup m c).bind fun k =>
        (classesOf m cs).bind fun ks => some (k :: ks)

/-- The state of a constructed `PascalVOC` dataset (the fields of `self`
that the accessors read). -/
structure Dataset where
  ids : List String
  anns : List (String × Ann)
  json_category_id_to_contiguous_id : List (Nat × Nat)
  contiguous_category_id_to_json_id : List (Nat × Nat)
  id_to_img_map : List (Nat × String)
  transforms : Option Transform

/-- `PascalVOC.__init__`: read and sort the manifest, build every
annotation record, derive the id mappings and the reverse lookup table.
`lines` are the lines of the split file, `files` maps an identifier to its
parsed annotation tree (`none` = missing file, fatal). -/
def init (lines : List String) (files : String → Option XML)
    (transforms : Option Transform) : Option Dataset := do
  let ids := pySorted (lines.map pyStrip)
  let anns ← buildAnns ids files
  pure { ids := ids, anns := anns,
         json_category_id_to_contiguous_id := jsonToContig,
         contiguous_category_id_to_json_id := contigToJson,
         id_to_img_map := ids.enum,
         transforms := transforms }

/-- `PascalVOC.__len__`. -/
def datasetLen (d : Dataset) : Nat :=
  d.ids.length

/-- Python list subscript `l[i]`: a negative index counts from the end;
out of `[-n, n)` is an `IndexError` (`none`). -/
def pyIndex {α : Type} (l : List α) (i : Int) : Option α :=
  let n : Int := l.length
  let j := if i < 0 then i + n else i
  if 0 ≤ j ∧ j < n then l.get? j.toNat else none

/-- `PascalVOC.__getitem__`: resolve the index to an identifier, open the
image (tracked by its (width, height)), fetch the precomputed record,
build and clip the target, apply the optional transforms.  `boxes` rows
always have width 4 (the `reshape(-1, 4)` guard is the identity on them,
and turns the empty list into a 0-row, width-4 tensor). -/
def getitem (d : Dataset) (imgs : String → Option (Int × Int)) (index : Int) :
    Option ((Int × Int) × BoxListM × Int) := do
  let img_id ← pyIndex d.ids index
  let wh ← imgs img_id
  let ann ← dlookup d.anns img_id
  let classes ← classesOf d.json_category_id_to_contiguous_id ann.labels
  let target := clipToImage ⟨ann.boxes, classes⟩ wh.1 wh.2
  match d.transforms with
  | none => pure (wh, target, index)
  | some f =>
      let (wh2, target2) := f (wh, target)
      pure (wh2, target2, index)

/-- `PascalVOC.get_img_info`: resolve the index and return the stored
`size` sub-structure; no image access, no clipping. -/
def get_img_info (d : Dataset) (index : Int) : Option PyVal := do
  let img_id ← pyIndex d.ids index
  let ann ← dlookup d.anns img_id
  pure ann.size

end VOC
namespace VOC

/-! ### Dictionary lemmas -/

theorem dlookup_dinsert_self {α β : Type} [BEq α] [LawfulBEq α]
    (d : List (α × β)) (k : α) (v : β) :
    dlookup (dinsert d k v) k = some v := by
  induction d with
  | nil => simp [dinsert, dlookup]
  | cons p d ih =>
      obtain ⟨a, b⟩ := p
      by_cases h : a == k
      · simp [dinsert, dlookup, h]
      · simp [dinsert, dlookup, h, ih]

theorem dlookup_dinsert_ne {α β : Type} [BEq α] [LawfulBEq α]
    (d : List (α × β)) (k k' : α) (v : β) (h : k' ≠ k) :
    dlookup (dinsert d k v) k' = dlookup d k' := by
  induction d with
  | nil =>
      have : (k == k') = false := by
        simpa using fun he => h he.symm
      simp [dinsert, dlookup, this]
  | cons p d ih =>
      obtain ⟨a, b⟩ := p
      by_cases ha : a == k
      · have hk : a = k := by simpa using ha
        have : (k == k') = false := by
          simpa using fun he => h he.symm
        simp [dinsert, dlookup, ha, hk, this]
      · simp [dinsert, dlookup, ha, ih]

/-! ### Parser lemmas -/

theorem parseChildren_cons_object (c : XML) (cs : List XML) (acc : AList)
    (hc : c.tag = "object") :
    parseChildren (c :: cs) acc =
      parseChildren cs
        (dinsert acc "object"
          (.vlist (objEntries (dlookup acc "object") ++ [parseValue c]))) := by
  rw [parseChildren]
  simp [hc]

theorem parseChildren_cons_ne (c : XML) (cs : List XML) (acc : AList)
    (hc : c.tag ≠ "object") :
    parseChildren (c :: cs) acc =
      parseChildren cs (dinsert acc c.tag (parseValue c)) := by
  rw [parseChildren]
  simp [hc]

theorem parseChildren_object_acc (cs : List XML) (acc : AList) (l : List PyVal)
    (h : dlookup acc "object" = some (.vlist l)) :
    dlookup (parseChildren cs acc) "object" =
      some (.vlist (l ++ (cs.filter (fun c => c.tag == "object")).map parseValue)) := by
  induction cs generalizing acc l with
  | nil => simpa [parseChildren] using h
  | cons c cs ih =>
      by_cases hc : c.tag = "object"
      · rw [parseChildren_cons_object c cs acc hc]
        have hstep :
            dlookup (dinsert acc "object"
              (.vlist (objEntries (dlookup acc "object") ++ [parseValue c]))) "object" =
              some (.vlist (l ++ [parseValue c])) := by
          rw [h]
          simpa [objEntries] using
            dlookup_dinsert_self acc "object" (PyVal.vlist (l ++ [parseValue c]))
        rw [ih _ _ hstep]
        simp [hc]
      · rw [parseChildren_cons_ne c cs acc hc]
        have hkeep : dlookup (dinsert acc c.tag (parseValue c)) "object" =
            some (.vlist l) := by
          rw [dlookup_dinsert_ne _ _ _ _ (fun he => hc he.symm), h]
        rw [ih _ _ hkeep]
        simp [hc]

theorem parseChildren_object_none (cs : List XML) (acc : AList)
    (h : dlookup acc "object" = none) :
    dlookup (parseChildren cs acc) "object" =
      match cs.filter (fun c => c.tag == "object") with
      | [] => none
      | os => some (.vlist (os.map parseValue)) := by
  induction cs generalizing acc with
  | nil => simpa [parseChildren] using h
  | cons c cs ih =>
      by_cases hc : c.tag = "object"
      · rw [parseChildren_cons_object c cs acc hc]
        have hstep :
            dlookup (dinsert acc "object"
              (.vlist (objEntries (dlookup acc "object") ++ [parseValue c]))) "object" =
              some (.vlist ([parseValue c] ++ [])) := by
          rw [h]
          simpa [objEntries] using
            dlookup_dinsert_self acc "object" (PyVal.vlist [parseValue c])
        have hfc : (c :: cs).filter (fun c => c.tag == "object") =
            c :: cs.filter (fun c => c.tag == "object") := by
          simp [hc]
        rw [parseChildren_object_acc _ _ _ hstep, hfc]
        simp
      · rw [parseChildren_cons_ne c cs acc hc]
        have hkeep : dlookup (dinsert acc c.tag (parseValue c)) "object" = none := by
          rw [dlookup_dinsert_ne _ _ _ _ (fun he => hc he.symm), h]
        have hfc : (c :: cs).filter (fun c => c.tag == "object") =
            cs.filter (fun c => c.tag == "object") := by
          simp [hc]
        rw [ih _ hkeep, hfc]

theorem parseChildren_ne_object (cs : List XML) (acc : AList) (t : String)
    (ht : t ≠ "object") :
    dlookup (parseChildren cs acc) t =
      cs.foldl (fun o c => if c.tag == t then some (parseValue c) else o)
        (dlookup acc t) := by
  induction cs generalizing acc with
  | nil => simp [parseChildren]
  | cons c cs ih =>
      rw [List.foldl_cons]
      by_cases hc : c.tag = "object"
      · have hct : (c.tag == t) = false := by
          have : c.tag ≠ t := by rw [hc]; exact fun he => ht he.symm
          simpa using this
        rw [parseChildren_cons_object c cs acc hc, ih _,
          dlookup_dinsert_ne _ _ _ _ ht, hct]
        simp
      · rw [parseChildren_cons_ne c cs acc hc]
        by_cases hct : c.tag = t
        · have hbt : (c.tag == t) = true := by simpa using hct
          rw [ih _, hbt, if_pos rfl, hct, dlookup_dinsert_self]
        · have hbt : (c.tag == t) = false := by simpa using hct
          rw [ih _, hbt, dlookup_dinsert_ne _ _ _ _ (fun he => hct he.symm)]
          simp

theorem getLast?_cons_of_ne_nil {α : Type} (a : α) {l : List α} (h : l ≠ []) :
    (a :: l).getLast? = l.getLast? := by
  cases l with
  | nil => exact absurd rfl h
  | cons b l => rfl

theorem getLast?_cons_ne_none {α : Type} (a : α) (l : List α) :
    (a :: l).getLast? ≠ none := by
  induction l generalizing a with
  | nil => simp [List.getLast?]
  | cons b l ih =>
      rw [getLast?_cons_of_ne_nil a (List.cons_ne_nil b l)]
      exact ih b

theorem foldl_last_update (t : String) (cs : List XML) (o : Option PyVal) :
    cs.foldl (fun o c => if c.tag == t then some (parseValue c) else o) o =
      match (cs.filter (fun c => c.tag == t)).getLast? with
      | none => o
      | some c => some (parseValue c) := by
  induction cs generalizing o with
  | nil => simp
  | cons c cs ih =>
      rw [List.foldl_cons]
      by_cases hc : c.tag = t
      · have hbt : (c.tag == t) = true := by simpa using hc
        rw [hbt, if_pos rfl, ih]
        cases hfilter : cs.filter (fun c => c.tag == t) with
        | nil => simp [hbt, hfilter]
        | cons d ds =>
            have hfc : (c :: cs).filter (fun c => c.tag == t) = c :: d :: ds := by
              simp [hbt, hfilter]
            rw [hfc, getLast?_cons_of_ne_nil c (List.cons_ne_nil d ds)]
            cases hg : (d :: ds).getLast? with
            | none => exact absurd hg (getLast?_cons_ne_none d ds)
            | some e => rfl
      · have hbt : (c.tag == t) = false := by simpa using hc
        rw [hbt]
        simp only [Bool.false_eq_true, if_false]
        rw [ih]
        have hfc : (c :: cs).filter (fun c => c.tag == t) =
            cs.filter (fun c => c.tag == t) := by
          simp [hbt]
        rw [hfc]

/-! ### Sample data for concrete instances -/

/-- A concrete `object` element with the given name, difficult flag and
box coordinate texts. -/
def xmlObj (nm diff x0 y0 x1 y1 : String) : XML :=
  .node "object" none
    [.node "name" (some nm) [],
     .node "difficult" (some diff) [],
     .node "bndbox" none
       [.node "xmin" (some x0) [], .node "ymin" (some y0) [],
        .node "xmax" (some x1) [], .node "ymax" (some y1) []]]

/-- A concrete `size` element. -/
def xmlSize (w h : String) : XML :=
  .node "size" none [.node "width" (some w) [], .node "height" (some h) []]

/-- Children of an annotation tree with two sibling `object` nodes. -/
def twoObjChildren : List XML :=
  [xmlSize "100" "100", xmlObj "car" "0" "1" "2" "3" "4",
   xmlObj "dog" "0" "5" "6" "7" "8"]

/-- Children with two sibling `width` nodes (a duplicated non-`object` tag). -/
def dupWidthChildren : List XML :=
  [.node "width" (some "3") [], .node "width" (some "7") []]

/-! ### C1 and C10: the recursive parser on sibling nodes -/

/-- C1: in any XML tree whose children contain two or more siblings tagged
`object`, the recursive parser returns a dict whose `object` key holds the
list of the parsed values of those siblings, one entry each, in document
order; any child with a different tag that occurs exactly once among the
siblings is mapped directly to its parsed value. -/
theorem object_siblings_accumulate (tag : String) (tx : Option String)
    (cs : List XML)
    (h2 : 2 ≤ (cs.filter (fun c => c.tag == "object")).length) :
    ∃ d : AList, parseValue (XML.node tag tx cs) = .vdict d ∧
      dlookup d "object" =
        some (.vlist ((cs.filter (fun c => c.tag == "object")).map parseValue)) ∧
      ∀ c ∈ cs, c.tag ≠ "object" →
        cs.filter (fun c2 => c2.tag == c.tag) = [c] →
        dlookup d c.tag = some (parseValue c) := by
  cases cs with
  | nil => simp at h2
  | cons c0 cs0 =>
      refine ⟨parseChildren (c0 :: cs0) [], rfl, ?_, ?_⟩
      · rw [parseChildren_object_none _ _ (by rfl)]
        cases hf : (c0 :: cs0).filter (fun c => c.tag == "object") with
        | nil => rw [hf] at h2; simp at h2
        | cons a as => rfl
      · intro c _ hct hone
        rw [parseChildren_ne_object _ _ _ hct, foldl_last_update, hone]
        rfl

/-- Witness for C1 at a concrete tree with two `object` siblings and a
uniquely-tagged `size` sibling. -/
theorem object_siblings_accumulate_witness :
    2 ≤ (twoObjChildren.filter (fun c => c.tag == "object")).length ∧
    ∃ d : AList, parseValue (XML.node "annotation" none twoObjChildren) = .vdict d ∧
      dlookup d "object" =
        some (.vlist ((twoObjChildren.filter (fun c => c.tag == "object")).map parseValue)) ∧
      ∀ c ∈ twoObjChildren, c.tag ≠ "object" →
        twoObjChildren.filter (fun c2 => c2.tag == c.tag) = [c] →
        dlookup d c.tag = some (parseValue c) :=
  ⟨by decide, object_siblings_accumulate "annotation" none twoObjChildren (by decide)⟩

/-- C10: in any XML tree whose children contain two or more siblings
sharing a tag `t ≠ object`, the recursive parser keeps only the parsed
value of the last such sibling under key `t`. -/
theorem nonobject_siblings_overwrite (tag : String) (tx : Option String)
    (cs : List XML) (t : String) (ht : t ≠ "object") (c : XML)
    (h2 : 2 ≤ (cs.filter (fun c2 => c2.tag == t)).length)
    (hlast : (cs.filter (fun c2 => c2.tag == t)).getLast? = some c) :
    ∃ d : AList, parseValue (XML.node tag tx cs) = .vdict d ∧
      dlookup d t = some (parseValue c) := by
  cases cs with
  | nil => simp at h2
  | cons c0 cs0 =>
      refine ⟨parseChildren (c0 :: cs0) [], rfl, ?_⟩
      rw [parseChildren_ne_object _ _ _ ht, foldl_last_update, hlast]

/-- Witness for C10 at a concrete tree with two `width` siblings: the
second (`"7"`) wins. -/
theorem nonobject_siblings_overwrite_witness :
    2 ≤ (dupWidthChildren.filter (fun c2 => c2.tag == "width")).length ∧
    ∃ d : AList, parseValue (XML.node "size" none dupWidthChildren) = .vdict d ∧
      dlookup d "width" = some (parseValue (XML.node "width" (some "7") [])) :=
  ⟨by decide,
   nonobject_siblings_overwrite "size" none dupWidthChildren "width"
     (by decide) (XML.node "width" (some "7") []) (by decide) (by rfl)⟩

end VOC

namespace VOC

/-! ### C2: boxes/labels alignment and difficult-object exclusion -/

theorem buildBoxes_cons (obj : PyVal) (rest : List PyVal) :
    buildBoxes (obj :: rest) =
      (objDifficult obj).bind fun d =>
        if d = 0 then
          (parseBox obj).bind fun b =>
            (buildBoxes rest).bind fun bs => some (b :: bs)
        else buildBoxes rest := rfl

theorem buildLabels_cons (obj : PyVal) (rest : List PyVal) :
    buildLabels (obj :: rest) =
      (objDifficult obj).bind fun d =>
        if d = 0 then
          (pyAccess obj "name").bind fun nm =>
            (vocIndex nm).bind fun l =>
              (buildLabels rest).bind fun ls => some (l :: ls)
        else buildLabels rest := rfl

theorem buildAnn_eq (x : XML) :
    buildAnn x =
      (annData x).bind fun d =>
        (pyAccess d "object").bind fun ov =>
          (asObjList ov).bind fun objs =>
            (buildBoxes objs).bind fun boxes =>
              (buildLabels objs).bind fun labels =>
                (pyAccess d "size").bind fun size =>
                  some ⟨boxes, labels, size⟩ := rfl

theorem buildBoxes_labels_length (objs : List PyVal) (bs : List (List Int))
    (ls : List Nat) (hb : buildBoxes objs = some bs)
    (hl : buildLabels objs = some ls) :
    bs.length = ls.length := by
  induction objs generalizing bs ls with
  | nil =>
      simp only [buildBoxes, Option.some.injEq] at hb
      simp only [buildLabels, Option.some.injEq] at hl
      subst hb; subst hl; rfl
  | cons obj rest ih =>
      rw [buildBoxes_cons] at hb
      rw [buildLabels_cons] at hl
      simp only [Option.bind_eq_some] at hb hl
      obtain ⟨d, hd, hb⟩ := hb
      obtain ⟨d2, hd2, hl⟩ := hl
      rw [hd] at hd2
      obtain rfl : d = d2 := Option.some.inj hd2
      by_cases h0 : d = 0
      · rw [if_pos h0] at hb hl
        simp only [Option.bind_eq_some, Option.some.injEq] at hb hl
        obtain ⟨b, hbx, bs', hbs', rfl⟩ := hb
        obtain ⟨nm, hnm, i, hi, ls', hls', rfl⟩ := hl
        simpa using ih bs' ls' hbs' hls'
      · rw [if_neg h0] at hb hl
        exact ih bs ls hb hl

theorem buildBoxes_filter_difficult (objs : List PyVal) (bs : List (List Int))
    (hb : buildBoxes objs = some bs) :
    buildBoxes (objs.filter (fun o => objDifficult o == some 0)) = some bs := by
  induction objs generalizing bs with
  | nil => simpa using hb
  | cons obj rest ih =>
      rw [buildBoxes_cons] at hb
      simp only [Option.bind_eq_some] at hb
      obtain ⟨d, hd, hb⟩ := hb
      by_cases h0 : d = 0
      · subst h0
        have hkeep : (objDifficult obj == some (0 : Int)) = true := by
          simp [hd]
        rw [if_pos rfl] at hb
        simp only [Option.bind_eq_some, Option.some.injEq] at hb
        obtain ⟨b, hbx, bs', hbs', rfl⟩ := hb
        have hfc : List.filter (fun o => objDifficult o == some 0) (obj :: rest) =
            obj :: List.filter (fun o => objDifficult o == some 0) rest := by
          simp [List.filter_cons, hkeep]
        rw [hfc, buildBoxes_cons, hd, Option.some_bind, if_pos rfl, hbx,
          Option.some_bind, ih bs' hbs', Option.some_bind]
      · have hdrop : (objDifficult obj == some (0 : Int)) = false := by
          simp [hd, h0]
        rw [if_neg h0] at hb
        have hfc : List.filter (fun o => objDifficult o == some 0) (obj :: rest) =
            List.filter (fun o => objDifficult o == some 0) rest := by
          simp [List.filter_cons, hdrop]
        rw [hfc]
        exact ih bs hb

theorem buildLabels_filter_difficult (objs : List PyVal) (ls : List Nat)
    (hl : buildLabels objs = some ls) :
    buildLabels (objs.filter (fun o => objDifficult o == some 0)) = some ls := by
  induction objs generalizing ls with
  | nil => simpa using hl
  | cons obj rest ih =>
      rw [buildLabels_cons] at hl
      simp only [Option.bind_eq_some] at hl
      obtain ⟨d, hd, hl⟩ := hl
      by_cases h0 : d = 0
      · subst h0
        have hkeep : (objDifficult obj == some (0 : Int)) = true := by
          simp [hd]
        rw [if_pos rfl] at hl
        simp only [Option.bind_eq_some, Option.some.injEq] at hl
        obtain ⟨nm, hnm, i, hi, ls', hls', rfl⟩ := hl
        have hfc : List.filter (fun o => objDifficult o == some 0) (obj :: rest) =
            obj :: List.filter (fun o => objDifficult o == some 0) rest := by
          simp [List.filter_cons, hkeep]
        rw [hfc, buildLabels_cons, hd, Option.some_bind, if_pos rfl, hnm,
          Option.some_bind, hi, Option.some_bind, ih ls' hls', Option.some_bind]
      · have hdrop : (objDifficult obj == some (0 : Int)) = false := by
          simp [hd, h0]
        rw [if_neg h0] at hl
        have hfc : List.filter (fun o => objDifficult o == some 0) (obj :: rest) =
            List.filter (fun o => objDifficult o == some 0) rest := by
          simp [List.filter_cons, hdrop]
        rw [hfc]
        exact ih ls hl

/-- `annObjects` as an explicit bind chain. -/
theorem annObjects_eq (x : XML) :
    annObjects x =
      (annData x).bind fun d =>
        (pyAccess d "object").bind fun ov => asObjList ov := rfl

/-- Unpacking `buildAnn x = some ann` into its stages. -/
theorem buildAnn_elim (x : XML) (ann : Ann) (h : buildAnn x = some ann) :
    ∃ data objs,
      annData x = some data ∧
      pyAccess data "object" = some (.vlist objs) ∧
      annObjects x = some objs ∧
      buildBoxes objs = some ann.boxes ∧
      buildLabels objs = some ann.labels ∧
      pyAccess data "size" = some ann.size := by
  rw [buildAnn_eq] at h
  cases hdata : annData x with
  | none => rw [hdata] at h; simp at h
  | some data =>
  rw [hdata, Option.some_bind] at h
  cases hov : pyAccess data "object" with
  | none => rw [hov] at h; simp at h
  | some ov =>
  rw [hov, Option.some_bind] at h
  cases ov with
  | vtext t => simp [asObjList] at h
  | vdict dd => simp [asObjList] at h
  | vlist objs =>
  rw [show asObjList (.vlist objs) = some objs from rfl, Option.some_bind] at h
  cases hbs : buildBoxes objs with
  | none => rw [hbs] at h; simp at h
  | some bs =>
  rw [hbs, Option.some_bind] at h
  cases hls : buildLabels objs with
  | none => rw [hls] at h; simp at h
  | some ls =>
  rw [hls, Option.some_bind] at h
  cases hsz : pyAccess data "size" with
  | none => rw [hsz] at h; simp at h
  | some sz =>
  rw [hsz, Option.some_bind] at h
  obtain rfl : Ann.mk bs ls sz = ann := Option.some.inj h
  refine ⟨data, objs, rfl, hov, ?_, hbs, hls, hsz⟩
  rw [annObjects_eq, hdata, Option.some_bind, hov, Option.some_bind]
  rfl

/-- C2: every annotation record the Builder derives has as many boxes as
labels, and an object whose `difficult` field does not parse to the
integer 0 contributes an entry to neither sequence: both sequences are
unchanged when the difficult objects are removed from the object list. -/
theorem boxes_labels_aligned (x : XML) (ann : Ann) (h : buildAnn x = some ann) :
    ann.boxes.length = ann.labels.length ∧
    ∀ objs, annObjects x = some objs →
      buildBoxes (objs.filter (fun o => objDifficult o == some 0)) = some ann.boxes ∧
      buildLabels (objs.filter (fun o => objDifficult o == some 0)) = some ann.labels := by
  obtain ⟨data, objs, hdata, hov, hobjs, hbs, hls, hsz⟩ := buildAnn_elim x ann h
  refine ⟨buildBoxes_labels_length objs _ _ hbs hls, ?_⟩
  intro objs2 hobjs2
  rw [hobjs] at hobjs2
  obtain rfl : objs = objs2 := Option.some.inj hobjs2
  exact ⟨buildBoxes_filter_difficult objs _ hbs, buildLabels_filter_difficult objs _ hls⟩

/-- An annotation tree with one difficult (`"1"`) and one non-difficult
(`"0"`) object. -/
def mixedDifficultTree : XML :=
  .node "annotation" none
    [xmlSize "100" "100", xmlObj "car" "0" "10" "20" "30" "40",
     xmlObj "dog" "1" "1" "2" "3" "4"]

/-- The record built for `mixedDifficultTree`: only the non-difficult
`car` object appears. -/
def mixedDifficultAnn : Ann :=
  ⟨[[10, 20, 30, 40]], [6],
   .vdict [("width", .vtext (some "100")), ("height", .vtext (some "100"))]⟩

/-- Witness for C2 on `mixedDifficultTree`. -/
theorem boxes_labels_aligned_witness :
    buildAnn mixedDifficultTree = some mixedDifficultAnn ∧
    mixedDifficultAnn.boxes.length = mixedDifficultAnn.labels.length ∧
    annObjects mixedDifficultTree =
      some [parseValue (xmlObj "car" "0" "10" "20" "30" "40"),
            parseValue (xmlObj "dog" "1" "1" "2" "3" "4")] ∧
    buildBoxes
      (([parseValue (xmlObj "car" "0" "10" "20" "30" "40"),
         parseValue (xmlObj "dog" "1" "1" "2" "3" "4")].filter
        (fun o => objDifficult o == some 0))) = some mixedDifficultAnn.boxes ∧
    buildLabels
      (([parseValue (xmlObj "car" "0" "10" "20" "30" "40"),
         parseValue (xmlObj "dog" "1" "1" "2" "3" "4")].filter
        (fun o => objDifficult o == some 0))) = some mixedDifficultAnn.labels :=
  ⟨rfl, (boxes_labels_aligned mixedDifficultTree mixedDifficultAnn rfl).1, rfl,
   ((boxes_labels_aligned mixedDifficultTree mixedDifficultAnn rfl).2 _ rfl).1,
   ((boxes_labels_aligned mixedDifficultTree mixedDifficultAnn rfl).2 _ rfl).2⟩

end VOC

namespace VOC

/-! ### C3: annotations with zero `object` children -/

theorem buildAnns_cons (i : String) (rest : List String)
    (files : String → Option XML) :
    buildAnns (i :: rest) files =
      (files i).bind fun x =>
        (buildAnn x).bind fun a =>
          (buildAnns rest files).bind fun r => some ((i, a) :: r) := rfl

theorem init_eq (lines : List String) (files : String → Option XML)
    (transforms : Option Transform) :
    init lines files transforms =
      (buildAnns (pySorted (lines.map pyStrip)) files).bind fun anns =>
        some { ids := pySorted (lines.map pyStrip), anns := anns,
               json_category_id_to_contiguous_id := jsonToContig,
               contiguous_category_id_to_json_id := contigToJson,
               id_to_img_map := (pySorted (lines.map pyStrip)).enum,
               transforms := transforms } := rfl

/-- If any identifier of the manifest has an annotation file whose record
derivation fails, the whole Builder loop fails. -/
theorem buildAnns_fail_of_mem (ids : List String) (files : String → Option XML)
    (id : String) (hid : id ∈ ids) (x : XML) (hx : files id = some x)
    (hb : buildAnn x = none) :
    buildAnns ids files = none := by
  induction ids with
  | nil => cases hid
  | cons i rest ih =>
      rw [buildAnns_cons]
      rcases List.mem_cons.mp hid with rfl | htail
      · rw [hx, Option.some_bind, hb, Option.none_bind]
      · cases hfi : files i with
        | none => rfl
        | some x2 =>
            rw [Option.some_bind]
            cases hbx : buildAnn x2 with
            | none => rfl
            | some a =>
                rw [Option.some_bind, ih htail, Option.none_bind]

/-- C3 (amended): an annotation tree with zero `object` children is
rejected, not accepted: the record derivation fails with a lookup error
(`data['object']` raises `KeyError`), and dataset construction fails for
any split whose manifest contains such an identifier. -/
theorem zero_objects_rejected (tx : Option String) (cs : List XML)
    (hobj : cs.filter (fun c => c.tag == "object") = []) :
    buildAnn (XML.node "annotation" tx cs) = none ∧
    ∀ lines files transforms id,
      id ∈ pySorted (lines.map pyStrip) →
      files id = some (XML.node "annotation" tx cs) →
      init lines files transforms = none := by
  have h1 : buildAnn (XML.node "annotation" tx cs) = none := by
    cases cs with
    | nil => rfl
    | cons c0 cs0 =>
        rw [buildAnn_eq]
        have hdata : annData (XML.node "annotation" tx (c0 :: cs0)) =
            some (.vdict (parseChildren (c0 :: cs0) [])) := rfl
        rw [hdata, Option.some_bind]
        have hnone : pyAccess (PyVal.vdict (parseChildren (c0 :: cs0) []))
            "object" = none := by
          show dlookup (parseChildren (c0 :: cs0) []) "object" = none
          rw [parseChildren_object_none (c0 :: cs0) [] rfl, hobj]
        rw [hnone, Option.none_bind]
  refine ⟨h1, ?_⟩
  intro lines files transforms id hmem hfile
  rw [init_eq, buildAnns_fail_of_mem _ files id hmem _ hfile h1,
    Option.none_bind]

/-- C3 counterexample: a well-formed annotation tree containing `size` but
zero `object` children makes dataset construction fail (it does not
produce a record with empty boxes and labels). -/
theorem zero_objects_fail_concrete :
    init ["0001"]
      (fun _ => some (XML.node "annotation" none [xmlSize "100" "100"])) none =
      none := rfl

/-- Witness for the amended C3 at the same concrete annotation tree. -/
theorem zero_objects_rejected_witness :
    ([xmlSize "100" "100"].filter (fun c => c.tag == "object") = []) ∧
    buildAnn (XML.node "annotation" none [xmlSize "100" "100"]) = none ∧
    init ["0002"]
      (fun _ => some (XML.node "annotation" none [xmlSize "100" "100"])) none =
      none :=
  ⟨rfl,
   (zero_objects_rejected none [xmlSize "100" "100"] rfl).1,
   (zero_objects_rejected none [xmlSize "100" "100"] rfl).2
     ["0002"] _ none "0002" (by decide) rfl⟩

end VOC

namespace VOC

/-! ### Accessor plumbing -/

/-- The part of `__getitem__` past index resolution, as a bind chain. -/
def getitemData (d : Dataset) (imgs : String → Option (Int × Int))
    (img_id : String) : Option ((Int × Int) × BoxListM) :=
  (imgs img_id).bind fun wh =>
    (dlookup d.anns img_id).bind fun ann =>
      (classesOf d.json_category_id_to_contiguous_id ann.labels).bind fun classes =>
        match d.transforms with
        | none => some (wh, clipToImage ⟨ann.boxes, classes⟩ wh.1 wh.2)
        | some f => some (f (wh, clipToImage ⟨ann.boxes, classes⟩ wh.1 wh.2))

theorem getitem_eqn (d : Dataset) (imgs : String → Option (Int × Int))
    (index : Int) :
    getitem d imgs index =
      (pyIndex d.ids index).bind fun img_id =>
        (imgs img_id).bind fun wh =>
          (dlookup d.anns img_id).bind fun ann =>
            (classesOf d.json_category_id_to_contiguous_id ann.labels).bind
              fun classes =>
                match d.transforms with
                | none =>
                    some (wh, clipToImage ⟨ann.boxes, classes⟩ wh.1 wh.2, index)
                | some f =>
                    some ((f (wh, clipToImage ⟨ann.boxes, classes⟩ wh.1 wh.2)).1,
                      (f (wh, clipToImage ⟨ann.boxes, classes⟩ wh.1 wh.2)).2,
                      index) := rfl

theorem getitem_shape (d : Dataset) (imgs : String → Option (Int × Int))
    (index : Int) :
    getitem d imgs index =
      (pyIndex d.ids index).bind fun img_id =>
        (getitemData d imgs img_id).map fun p => (p.1, p.2, index) := by
  rw [getitem_eqn]
  simp only [getitemData]
  cases pyIndex d.ids index with
  | none => rfl
  | some img_id =>
      simp only [Option.some_bind]
      cases imgs img_id with
      | none => rfl
      | some wh =>
          simp only [Option.some_bind]
          cases dlookup d.anns img_id with
          | none => rfl
          | some ann =>
              simp only [Option.some_bind]
              cases classesOf d.json_category_id_to_contiguous_id ann.labels with
              | none => rfl
              | some classes =>
                  cases d.transforms with
                  | none => rfl
                  | some f => rfl

theorem get_img_info_eq (d : Dataset) (index : Int) :
    get_img_info d index =
      (pyIndex d.ids index).bind fun img_id =>
        (dlookup d.anns img_id).bind fun ann => some ann.size := rfl

/-- `l[i]` for a nonnegative in-range Python index is plain list access. -/
theorem pyIndex_nat {α : Type} (l : List α) (i : Nat) (h : i < l.length) :
    pyIndex l (i : Int) = l.get? i := by
  have h0 : ¬((i : Int) < 0) := by omega
  have h1 : (0 : Int) ≤ (i : Int) ∧ (i : Int) < (l.length : Int) := by omega
  simp only [pyIndex, if_neg h0, if_pos h1, Int.toNat_natCast]

/-- `l[i]` for a negative in-range Python index counts from the end. -/
theorem pyIndex_neg {α : Type} (l : List α) (i : Int)
    (hlo : -(l.length : Int) ≤ i) (hhi : i < 0) :
    pyIndex l i = l.get? (i + l.length).toNat := by
  have h1 : (0 : Int) ≤ i + l.length ∧ i + (l.length : Int) < l.length := by omega
  simp only [pyIndex, if_pos hhi, if_pos h1]

/-- `l[i]` out of `[-n, n)` is an `IndexError`. -/
theorem pyIndex_out {α : Type} (l : List α) (i : Int)
    (h : i < -(l.length : Int) ∨ (l.length : Int) ≤ i) :
    pyIndex l i = none := by
  rcases h with h | h
  · have hneg : i < 0 := by omega
    have : ¬((0 : Int) ≤ i + l.length ∧ i + (l.length : Int) < l.length) := by omega
    simp only [pyIndex, if_pos hneg, if_neg this]
  · have hnon : ¬(i < 0) := by omega
    have : ¬((0 : Int) ≤ i ∧ i < (l.length : Int)) := by omega
    simp only [pyIndex, if_neg hnon, if_neg this]

theorem dlookup_enumFrom {α : Type} (l : List α) (k i : Nat) :
    dlookup (List.enumFrom k l) (k + i) = l.get? i := by
  induction l generalizing k i with
  | nil => cases i <;> rfl
  | cons a l ih =>
      show dlookup ((k, a) :: List.enumFrom (k + 1) l) (k + i) = _
      cases i with
      | zero => simp [dlookup]
      | succ j =>
          have hne : (k == k + (j + 1)) = false := by
            simp
          have harg : k + (j + 1) = (k + 1) + j := by omega
          simp only [dlookup, hne, Bool.false_eq_true, if_false]
          rw [harg, ih]
          rfl

theorem dlookup_enum {α : Type} (l : List α) (i : Nat) :
    dlookup l.enum i = l.get? i := by
  have := dlookup_enumFrom l 0 i
  simpa [List.enum] using this

/-! ### The string order used by `sorted` -/

theorem lexLe_total (as bs : List Char) :
    lexLe as bs = true ∨ lexLe bs as = true := by
  induction as generalizing bs with
  | nil => left; rfl
  | cons a as ih =>
      cases bs with
      | nil => right; rfl
      | cons b bs =>
          by_cases hab : a.toNat < b.toNat
          · left; simp [lexLe, hab]
          · by_cases hba : b.toNat < a.toNat
            · right; simp [lexLe, hba]
            · rcases ih bs with h | h
              · left; simp [lexLe, hab, hba, h]
              · right; simp [lexLe, hab, hba, h]

theorem lexLe_trans (as bs cs : List Char) (h1 : lexLe as bs = true)
    (h2 : lexLe bs cs = true) : lexLe as cs = true := by
  induction as generalizing bs cs with
  | nil => rfl
  | cons a as ih =>
      cases bs with
      | nil => simp [lexLe] at h1
      | cons b bs =>
          cases cs with
          | nil => simp [lexLe] at h2
          | cons c cs =>
              simp only [lexLe] at h1 h2 ⊢
              by_cases hab : a.toNat < b.toNat
              · by_cases hbc : b.toNat < c.toNat
                · have : a.toNat < c.toNat := by omega
                  simp [this]
                · by_cases hcb : c.toNat < b.toNat
                  · rw [if_neg hbc, if_pos hcb] at h2
                    simp at h2
                  · have : a.toNat < c.toNat := by omega
                    simp [this]
              · by_cases hba : b.toNat < a.toNat
                · rw [if_neg hab, if_pos hba] at h1
                  simp at h1
                · by_cases hbc : b.toNat < c.toNat
                  · have : a.toNat < c.toNat := by omega
                    simp [this]
                  · by_cases hcb : c.toNat < b.toNat
                    · rw [if_neg hbc, if_pos hcb] at h2
                      simp at h2
                    · have hac : ¬(a.toNat < c.toNat) := by omega
                      have hca : ¬(c.toNat < a.toNat) := by omega
                      rw [if_neg hab, if_neg hba] at h1
                      rw [if_neg hbc, if_neg hcb] at h2
                      rw [if_neg hac, if_neg hca]
                      exact ih bs cs h1 h2

instance : IsTotal String strle :=
  ⟨fun a b => lexLe_total a.data b.data⟩

instance : IsTrans String strle :=
  ⟨fun a b c => lexLe_trans a.data b.data c.data⟩

end VOC

namespace VOC

/-! ### C4: zero non-difficult objects round-trips through the accessor -/

/-- C4: when an index resolves to a record with empty boxes and labels
(zero non-difficult objects), `__getitem__` returns successfully with a
target holding zero box rows (each row trivially of width 4) and zero
label entries, rather than raising. -/
theorem empty_record_get (d : Dataset) (imgs : String → Option (Int × Int))
    (i : Int) (img_id : String) (sz : PyVal) (w h : Int)
    (htr : d.transforms = none)
    (hid : pyIndex d.ids i = some img_id)
    (himg : imgs img_id = some (w, h))
    (hann : dlookup d.anns img_id = some ⟨[], [], sz⟩) :
    ∃ t : BoxListM, getitem d imgs i = some ((w, h), t, i) ∧
      t.bxs = [] ∧ t.labels = [] ∧ ∀ b ∈ t.bxs, b.length = 4 := by
  refine ⟨⟨[], []⟩, ?_, rfl, rfl, by simp⟩
  rw [getitem_eqn, hid, Option.some_bind, himg, Option.some_bind, hann,
    Option.some_bind]
  show (some []).bind _ = _
  rw [Option.some_bind, htr]
  rfl

/-- An annotation tree whose only object is difficult: the record keeps
zero boxes and zero labels. -/
def onlyDifficultTree : XML :=
  .node "annotation" none [xmlSize "100" "100", xmlObj "cat" "1" "1" "2" "3" "4"]

/-- The parsed `size` of the 100×100 sample trees. -/
def size100 : PyVal :=
  .vdict [("width", .vtext (some "100")), ("height", .vtext (some "100"))]

/-- The dataset built from a one-identifier manifest over
`onlyDifficultTree`. -/
def dEmpty : Dataset :=
  { ids := ["0001"], anns := [("0001", ⟨[], [], size100⟩)],
    json_category_id_to_contiguous_id := jsonToContig,
    contiguous_category_id_to_json_id := contigToJson,
    id_to_img_map := [(0, "0001")], transforms := none }

/-- Witness for C4: `dEmpty` really is built by `init`, and the accessor
returns an empty, well-shaped target on it. -/
theorem empty_record_get_witness :
    init ["0001"] (fun _ => some onlyDifficultTree) none = some dEmpty ∧
    ∃ t : BoxListM,
      getitem dEmpty (fun _ => some (100, 100)) 0 = some ((100, 100), t, 0) ∧
      t.bxs = [] ∧ t.labels = [] ∧ ∀ b ∈ t.bxs, b.length = 4 :=
  ⟨rfl, empty_record_get dEmpty (fun _ => some (100, 100)) 0 "0001" size100
    100 100 rfl rfl rfl rfl⟩

/-! ### C5: the contiguous-id mappings -/

theorem jsonToContig_lookup : ∀ c, c < 20 →
    dlookup jsonToContig c = some (c + 1) := by decide

theorem contigToJson_lookup : ∀ c, c < 20 →
    dlookup contigToJson (c + 1) = some c := by decide

theorem classesOf_jsonToContig (ls : List Nat) (h : ∀ c ∈ ls, c < 20) :
    classesOf jsonToContig ls = some (ls.map (fun c => c + 1)) := by
  induction ls with
  | nil => rfl
  | cons c cs ih =>
      have hc : c < 20 := h c (List.mem_cons_self c cs)
      have hcs : ∀ x ∈ cs, x < 20 := fun x hx => h x (List.mem_cons_of_mem c hx)
      show (dlookup jsonToContig c).bind _ = _
      rw [jsonToContig_lookup c hc, Option.some_bind, ih hcs, Option.some_bind]
      rfl

/-- C5: `json_category_id_to_contiguous_id` maps every raw index
`c < 20` to `c + 1`, its stored inverse maps `c + 1` back to `c`, the
contiguous ids `1..20` are each hit exactly once, both mappings are the
ones `__init__` stores, and `__getitem__` remaps every raw label through
the `+1` mapping before attaching the `labels` field (then clips). -/
theorem contiguous_id_bijection (d : Dataset)
    (imgs : String → Option (Int × Int)) (i : Int) (img_id : String)
    (ann : Ann) (w h : Int)
    (hd : d.json_category_id_to_contiguous_id = jsonToContig)
    (htr : d.transforms = none)
    (hid : pyIndex d.ids i = some img_id)
    (himg : imgs img_id = some (w, h))
    (hann : dlookup d.anns img_id = some ann)
    (hlab : ∀ c ∈ ann.labels, c < 20) :
    (∀ c, c < 20 → dlookup jsonToContig c = some (c + 1)) ∧
    (∀ c, c < 20 → dlookup contigToJson (c + 1) = some c) ∧
    jsonToContig.map Prod.snd = (List.range 20).map (fun c => c + 1) ∧
    (∀ lines files transforms d2, init lines files transforms = some d2 →
      d2.json_category_id_to_contiguous_id = jsonToContig ∧
      d2.contiguous_category_id_to_json_id = contigToJson) ∧
    getitem d imgs i =
      some ((w, h),
        clipToImage ⟨ann.boxes, ann.labels.map (fun c => c + 1)⟩ w h, i) := by
  refine ⟨jsonToContig_lookup, contigToJson_lookup, by decide, ?_, ?_⟩
  · intro lines files transforms d2 h2
    rw [init_eq] at h2
    cases hanns : buildAnns (pySorted (lines.map pyStrip)) files with
    | none => rw [hanns] at h2; simp at h2
    | some anns =>
        rw [hanns, Option.some_bind] at h2
        obtain rfl := Option.some.inj h2
        exact ⟨rfl, rfl⟩
  · rw [getitem_eqn, hid, Option.some_bind, himg, Option.some_bind, hann,
      Option.some_bind, hd, classesOf_jsonToContig ann.labels hlab,
      Option.some_bind, htr]

/-- The annotation tree of one non-difficult `car` object. -/
def tree1 : XML :=
  .node "annotation" none [xmlSize "100" "100", xmlObj "car" "0" "10" "20" "30" "40"]

/-- The record built from `tree1`: one 4-integer box, raw label 6. -/
def ann1 : Ann := ⟨[[10, 20, 30, 40]], [6], size100⟩

/-- The dataset built from a one-identifier manifest over `tree1`. -/
def d1 : Dataset :=
  { ids := ["0001"], anns := [("0001", ann1)],
    json_category_id_to_contiguous_id := jsonToContig,
    contiguous_category_id_to_json_id := contigToJson,
    id_to_img_map := [(0, "0001")], transforms := none }

/-- Witness for C5 on `d1`: label 6 (`car`) is attached as contiguous id 7. -/
theorem contiguous_id_bijection_witness :
    init ["0001"] (fun _ => some tree1) none = some d1 ∧
    getitem d1 (fun _ => some (100, 100)) 0 =
      some ((100, 100),
        clipToImage ⟨ann1.boxes, ann1.labels.map (fun c => c + 1)⟩ 100 100, 0) :=
  ⟨rfl,
   (contiguous_id_bijection d1 (fun _ => some (100, 100)) 0 "0001" ann1
     100 100 rfl rfl rfl rfl rfl (by decide)).2.2.2.2⟩

end VOC

namespace VOC

/-! ### C7: manifest handling and positional resolution -/

/-- C7: the identifier list `self.ids` is the manifest's lines,
whitespace-stripped, sorted lexicographically; duplicates are retained
(every identifier keeps its multiplicity); and for every in-range `i`,
the accessor's `self.ids[index]` resolution and the exposed
`id_to_img_map` both send `i` to the `i`-th identifier of the sorted
list. -/
theorem manifest_sorted_positional (lines : List String)
    (files : String → Option XML) (transforms : Option Transform)
    (d : Dataset) (h : init lines files transforms = some d) :
    d.ids.Sorted strle ∧
    d.ids.Perm (lines.map pyStrip) ∧
    (∀ s, d.ids.count s = (lines.map pyStrip).count s) ∧
    (∀ i : Nat, i < d.ids.length →
      pyIndex d.ids (i : Int) = d.ids.get? i ∧
      dlookup d.id_to_img_map i = d.ids.get? i) := by
  rw [init_eq] at h
  cases hanns : buildAnns (pySorted (lines.map pyStrip)) files with
  | none => rw [hanns] at h; simp at h
  | some anns =>
      rw [hanns, Option.some_bind] at h
      obtain rfl := Option.some.inj h
      refine ⟨List.sorted_insertionSort strle _, List.perm_insertionSort strle _,
        fun s => (List.perm_insertionSort strle _).count_eq s, fun i hi => ?_⟩
      exact ⟨pyIndex_nat _ i hi, dlookup_enum _ i⟩

/-- The dataset built from the two-line manifest `["0002", "0001"]` over
`tree1`: identifiers come out sorted. -/
def d2w : Dataset :=
  { ids := ["0001", "0002"], anns := [("0001", ann1), ("0002", ann1)],
    json_category_id_to_contiguous_id := jsonToContig,
    contiguous_category_id_to_json_id := contigToJson,
    id_to_img_map := [(0, "0001"), (1, "0002")], transforms := none }

/-- Witness for C7 on the out-of-order manifest `["0002", "0001"]`. -/
theorem manifest_sorted_positional_witness :
    init ["0002", "0001"] (fun _ => some tree1) none = some d2w ∧
    d2w.ids.Sorted strle ∧
    d2w.ids.Perm (["0002", "0001"].map pyStrip) ∧
    d2w.ids.count "0001" = (["0002", "0001"].map pyStrip).count "0001" ∧
    pyIndex d2w.ids ((0 : Nat) : Int) = d2w.ids.get? 0 ∧
    dlookup d2w.id_to_img_map 0 = d2w.ids.get? 0 :=
  ⟨rfl,
   (manifest_sorted_positional ["0002", "0001"] (fun _ => some tree1) none d2w rfl).1,
   (manifest_sorted_positional ["0002", "0001"] (fun _ => some tree1) none d2w rfl).2.1,
   (manifest_sorted_positional ["0002", "0001"] (fun _ => some tree1) none d2w rfl).2.2.1 "0001",
   ((manifest_sorted_positional ["0002", "0001"] (fun _ => some tree1) none d2w rfl).2.2.2 0 (by decide)).1,
   ((manifest_sorted_positional ["0002", "0001"] (fun _ => some tree1) none d2w rfl).2.2.2 0 (by decide)).2⟩

/-! ### C8: `get_img_info` returns the record the accessor uses -/

/-- C8: whenever `__getitem__` succeeds at an index, `get_img_info` at the
same index returns exactly the `size` sub-structure of the very record the
accessor looked up; `get_img_info` takes no image source and performs no
clipping — it reads only the precomputed record. -/
theorem get_info_matches_get (d : Dataset)
    (imgs : String → Option (Int × Int)) (i : Int)
    (r : (Int × Int) × BoxListM × Int) (h : getitem d imgs i = some r) :
    ∃ img_id ann,
      pyIndex d.ids i = some img_id ∧
      dlookup d.anns img_id = some ann ∧
      get_img_info d i = some ann.size := by
  rw [getitem_shape] at h
  cases hid : pyIndex d.ids i with
  | none => rw [hid] at h; simp at h
  | some img_id =>
      rw [hid, Option.some_bind] at h
      simp only [getitemData] at h
      cases himg : imgs img_id with
      | none => rw [himg] at h; simp at h
      | some wh =>
          rw [himg, Option.some_bind] at h
          cases hann : dlookup d.anns img_id with
          | none => rw [hann] at h; simp at h
          | some ann =>
              refine ⟨img_id, ann, rfl, hann, ?_⟩
              rw [get_img_info_eq, hid, Option.some_bind, hann,
                Option.some_bind]

/-- Witness for C8 on `d1`: the accessor succeeds and `get_img_info`
returns the stored size. -/
theorem get_info_matches_get_witness :
    getitem d1 (fun _ => some (100, 100)) 0 =
      some ((100, 100), ⟨[[10, 20, 30, 40]], [7]⟩, 0) ∧
    ∃ img_id ann,
      pyIndex d1.ids 0 = some img_id ∧
      dlookup d1.anns img_id = some ann ∧
      get_img_info d1 0 = some ann.size :=
  ⟨rfl,
   get_info_matches_get d1 (fun _ => some (100, 100)) 0
     ((100, 100), ⟨[[10, 20, 30, 40]], [7]⟩, 0) rfl⟩

/-! ### C9: Python-style negative indexing -/

theorem pyIndex_nonneg {α : Type} (l : List α) (j : Int)
    (h0 : 0 ≤ j) (hj : j < l.length) :
    pyIndex l j = l.get? j.toNat := by
  have hneg : ¬(j < 0) := by omega
  have h1 : (0 : Int) ≤ j ∧ j < (l.length : Int) := ⟨h0, hj⟩
  simp only [pyIndex, if_neg hneg, if_pos h1]

/-- C9: for `-n ≤ i < 0` both the sample accessor and the metadata
accessor resolve `i` Python-style to the identifier at position `n + i`
and return that sample's data (the sample and metadata parts of the
result agree with the nonnegative index `i + n`); every index outside
`[-n, n)` is an `IndexError` for both. -/
theorem negative_index_pythonic (d : Dataset)
    (imgs : String → Option (Int × Int)) (i : Int)
    (hlo : -(d.ids.length : Int) ≤ i) (hhi : i < 0) :
    pyIndex d.ids i = d.ids.get? (i + d.ids.length).toNat ∧
    (getitem d imgs i).map (fun r => (r.1, r.2.1)) =
      (getitem d imgs (i + d.ids.length)).map (fun r => (r.1, r.2.1)) ∧
    get_img_info d i = get_img_info d (i + d.ids.length) ∧
    ∀ j : Int, (j < -(d.ids.length : Int) ∨ (d.ids.length : Int) ≤ j) →
      pyIndex d.ids j = none ∧ getitem d imgs j = none ∧
      get_img_info d j = none := by
  have hres1 : pyIndex d.ids i = d.ids.get? (i + d.ids.length).toNat :=
    pyIndex_neg d.ids i hlo hhi
  have hres2 : pyIndex d.ids (i + d.ids.length) =
      d.ids.get? (i + d.ids.length).toNat := by
    rw [pyIndex_nonneg d.ids (i + d.ids.length) (by omega) (by omega)]
  refine ⟨hres1, ?_, ?_, ?_⟩
  · rw [getitem_shape d imgs i, getitem_shape d imgs (i + d.ids.length),
      hres1, hres2]
    cases d.ids.get? (i + (d.ids.length : Int)).toNat with
    | none => rfl
    | some img_id =>
        simp only [Option.some_bind]
        cases getitemData d imgs img_id with
        | none => rfl
        | some p => rfl
  · rw [get_img_info_eq d i, get_img_info_eq d (i + d.ids.length), hres1, hres2]
  · intro j hj
    have hout : pyIndex d.ids j = none := pyIndex_out d.ids j hj
    refine ⟨hout, ?_, ?_⟩
    · rw [getitem_shape, hout]; rfl
    · rw [get_img_info_eq, hout]; rfl

/-- Witness for C9 on `d1` at index `-1` (with `n = 1`). -/
theorem negative_index_pythonic_witness :
    pyIndex d1.ids (-1) = d1.ids.get? ((-1) + (d1.ids.length : Int)).toNat ∧
    (getitem d1 (fun _ => some (100, 100)) (-1)).map (fun r => (r.1, r.2.1)) =
      (getitem d1 (fun _ => some (100, 100)) ((-1) + (d1.ids.length : Int))).map
        (fun r => (r.1, r.2.1)) ∧
    get_img_info d1 (-1) = get_img_info d1 ((-1) + (d1.ids.length : Int)) ∧
    ∀ j : Int, (j < -(d1.ids.length : Int) ∨ (d1.ids.length : Int) ≤ j) →
      pyIndex d1.ids j = none ∧
      getitem d1 (fun _ => some (100, 100)) j = none ∧
      get_img_info d1 j = none :=
  negative_index_pythonic d1 (fun _ => some (100, 100)) (-1)
    (by decide) (by decide)

end VOC

namespace VOC

/-! ### C6: vocabulary lookup -/

theorem buildLabels_append (l1 l2 : List PyVal) (ls : List Nat)
    (h : buildLabels (l1 ++ l2) = some ls) :
    ∃ ls1 ls2, buildLabels l1 = some ls1 ∧ buildLabels l2 = some ls2 ∧
      ls = ls1 ++ ls2 := by
  induction l1 generalizing ls with
  | nil => exact ⟨[], ls, rfl, h, rfl⟩
  | cons obj rest ih =>
      rw [List.cons_append, buildLabels_cons] at h
      simp only [Option.bind_eq_some] at h
      obtain ⟨d, hd, h⟩ := h
      by_cases h0 : d = 0
      · rw [if_pos h0] at h
        simp only [Option.bind_eq_some, Option.some.injEq] at h
        obtain ⟨nm, hnm, k, hk, ls2, hls2, rfl⟩ := h
        obtain ⟨ls1a, ls1b, h1, h2, rfl⟩ := ih ls2 hls2
        refine ⟨k :: ls1a, ls1b, ?_, h2, rfl⟩
        rw [buildLabels_cons, hd, Option.some_bind, if_pos h0, hnm,
          Option.some_bind, hk, Option.some_bind, h1, Option.some_bind]
      · rw [if_neg h0] at h
        obtain ⟨ls1a, ls1b, h1, h2, rfl⟩ := ih ls h
        refine ⟨ls1a, ls1b, ?_, h2, rfl⟩
        rw [buildLabels_cons, hd, Option.some_bind, if_neg h0, h1]

theorem vocIndex_not_mem (s : String) (h : s ∉ VOC_BBOX_LABEL_NAMES) :
    vocIndex (.vtext (some s)) = none := by
  show VOC_BBOX_LABEL_NAMES.findIdx? (fun n => n == s) = none
  rw [List.findIdx?_eq_none_iff]
  intro x hx
  simp only [beq_eq_false_iff_ne, ne_eq]
  exact fun he => h (he ▸ hx)

theorem voc_nodup : VOC_BBOX_LABEL_NAMES.Nodup := by decide

theorem vocIndex_of_getElem (s : String) (i : Nat)
    (hi : VOC_BBOX_LABEL_NAMES[i]? = some s) :
    vocIndex (.vtext (some s)) = some i := by
  show VOC_BBOX_LABEL_NAMES.findIdx? (fun n => n == s) = some i
  rw [List.getElem?_eq_some_iff] at hi
  obtain ⟨hlen, hs⟩ := hi
  rw [List.findIdx?_eq_some_iff_getElem]
  refine ⟨hlen, by simp [hs], ?_⟩
  intro j hj
  simp only [beq_iff_eq]
  intro he
  have hij : j = i :=
    (@List.Nodup.getElem_inj_iff _ _ voc_nodup j (by omega) i hlen).mp
      (by rw [hs]; exact he)
  omega

/-- An `annObjects` success comes from an `annotation` dict holding the
object list. -/
theorem annObjects_elim (x : XML) (objs : List PyVal)
    (h : annObjects x = some objs) :
    ∃ data, annData x = some data ∧
      pyAccess data "object" = some (.vlist objs) := by
  rw [annObjects_eq] at h
  cases hdata : annData x with
  | none => rw [hdata] at h; simp at h
  | some data =>
      rw [hdata, Option.some_bind] at h
      cases hov : pyAccess data "object" with
      | none => rw [hov] at h; simp at h
      | some ov =>
          rw [hov, Option.some_bind] at h
          cases ov with
          | vtext t => simp [asObjList] at h
          | vdict dd => simp [asObjList] at h
          | vlist l =>
              obtain rfl : l = objs := by simpa [asObjList] using h
              exact ⟨data, rfl, hov⟩

/-- C6: during the Builder pass, a non-difficult object whose `name` text
is not an exact match of a vocabulary entry makes construction fail with
a lookup error — no skipping, no default label: `buildLabels` fails and
with it the whole record derivation; conversely a name that is the
`i`-th vocabulary entry is looked up as `i`, and label `i` is emitted for
that object in the built label list. -/
theorem vocab_lookup (objs : List PyVal) (obj : PyVal) (s : String)
    (rest1 rest2 : List PyVal) (hsplit : objs = rest1 ++ obj :: rest2)
    (hdiff : objDifficult obj = some 0)
    (hname : pyAccess obj "name" = some (.vtext (some s))) :
    (s ∉ VOC_BBOX_LABEL_NAMES →
      buildLabels objs = none ∧
      ∀ x, annObjects x = some objs → buildAnn x = none) ∧
    (∀ i, VOC_BBOX_LABEL_NAMES[i]? = some s →
      vocIndex (.vtext (some s)) = some i ∧
      ∀ ls, buildLabels objs = some ls → i ∈ ls) := by
  subst hsplit
  constructor
  · intro hmem
    have hnone : buildLabels (rest1 ++ obj :: rest2) = none := by
      cases hbl : buildLabels (rest1 ++ obj :: rest2) with
      | none => rfl
      | some ls =>
          obtain ⟨ls1, ls2, h1, h2, rfl⟩ := buildLabels_append _ _ _ hbl
          rw [buildLabels_cons, hdiff, Option.some_bind, if_pos rfl, hname,
            Option.some_bind, vocIndex_not_mem s hmem, Option.none_bind] at h2
          cases h2
    refine ⟨hnone, ?_⟩
    intro x hx
    obtain ⟨data, hdata, hov⟩ := annObjects_elim x _ hx
    rw [buildAnn_eq, hdata, Option.some_bind, hov, Option.some_bind]
    show (some (rest1 ++ obj :: rest2)).bind _ = none
    rw [Option.some_bind]
    cases hbb : buildBoxes (rest1 ++ obj :: rest2) with
    | none => rfl
    | some bs => rw [Option.some_bind, hnone, Option.none_bind]
  · intro i hi
    have hv : vocIndex (.vtext (some s)) = some i := vocIndex_of_getElem s i hi
    refine ⟨hv, ?_⟩
    intro ls hls
    obtain ⟨ls1, ls2, h1, h2, rfl⟩ := buildLabels_append _ _ _ hls
    rw [buildLabels_cons, hdiff, Option.some_bind, if_pos rfl, hname,
      Option.some_bind, hv, Option.some_bind] at h2
    simp only [Option.bind_eq_some, Option.some.injEq] at h2
    obtain ⟨ls3, hls3, rfl⟩ := h2
    exact List.mem_append_right ls1 (List.mem_cons_self i ls3)

/-- An object whose name is not in the vocabulary. -/
def unknownNameObj : PyVal := parseValue (xmlObj "unicorn" "0" "1" "2" "3" "4")

/-- Witness for C6: an unknown name (`"unicorn"`) is fatal for the
Builder, and the known name `"car"` is emitted as its position 6. -/
theorem vocab_lookup_witness :
    (buildLabels [unknownNameObj] = none ∧
      ∀ x, annObjects x = some [unknownNameObj] → buildAnn x = none) ∧
    (vocIndex (.vtext (some "car")) = some 6 ∧
      ∀ ls, buildLabels [parseValue (xmlObj "car" "0" "10" "20" "30" "40")] =
        some ls → 6 ∈ ls) :=
  ⟨(vocab_lookup [unknownNameObj] unknownNameObj "unicorn" [] [] rfl rfl rfl).1
     (by decide),
   (vocab_lookup [parseValue (xmlObj "car" "0" "10" "20" "30" "40")]
     (parseValue (xmlObj "car" "0" "10" "20" "30" "40")) "car" [] [] rfl rfl rfl).2
     6 (by decide)⟩

end VOC
